import Mathlib

/-!
Verification of the results-text parsing engine of `realtime_results_scraper`.

The Rust sources under `src/` are embedded shallowly:

* A Rust `&str` is modelled as a `List Char` (`Str` below).  Every search
  pattern the code uses (`":"`, `"1) "`, `"Event"`, …) is ASCII, so the byte
  indices returned by Rust's `str::find` always fall on the same boundaries
  as character indices; character-level `take`/`drop` at those positions is
  therefore equivalent to the byte slicing in the source.
* Rust `u8`/`u16`/`u32` values are modelled as `Nat`; where the code can
  overflow (`(splits.len() as u16 + 1) * 50`) the reduction `% 2 ^ 16` is
  applied explicitly, matching release-profile (wrapping) semantics.
* Fallible functions return `Option`, as in the source.

Definition names follow the Rust names (`parse_swimmer_section`,
`parse_relay_team_section`, `parse_event_metadata`, …).  Definitions whose
name starts with `spec` are NOT translations of the code: they transcribe
the natural-language specification, and are used only to compare the code
against the spec's words.
-/

namespace Scraper

/-- Characters of a Rust `&str`. -/
abbrev Str := List Char

/-- Rust `char::is_whitespace` restricted to the whitespace characters that
occur in the vendor's ASCII result sheets (space, tab, CR, LF).  Lean's
`Char.isWhitespace` tests exactly these four. -/
def isWS (c : Char) : Bool := c.isWhitespace

/-- Rust `str::trim`: drop whitespace from both ends. -/
def trimStr (s : Str) : Str :=
  ((s.dropWhile isWS).reverse.dropWhile isWS).reverse

/-- Rust `str::trim_end_matches(|c| c.is_ascii_alphabetic())`: drop all
trailing ASCII letters. -/
def trimEndAlpha (s : Str) : Str :=
  (s.reverse.dropWhile Char.isAlpha).reverse

/-- First character of a token equals `c` (Rust `str::starts_with(char)`). -/
def headIs (c : Char) (s : Str) : Bool :=
  match s with
  | [] => false
  | a :: _ => a = c

/-- Rust `str::contains(char)`. -/
def hasChar (c : Char) (s : Str) : Bool := s.contains c

/-- Rust `str::contains(&str)`: substring containment. -/
def strContains (hay needle : Str) : Bool :=
  needle.isPrefixOf hay ||
    match hay with
    | [] => false
    | _ :: t => strContains t needle

/-- Rust `str::find(&str)`: index (character = byte for the ASCII patterns
used here) of the first occurrence of `needle` in `hay`. -/
def findSub (hay needle : Str) : Option Nat :=
  if needle.isPrefixOf hay then some 0
  else
    match hay with
    | [] => none
    | _ :: t => (findSub t needle).map (· + 1)

/-- Rust slice `parts[a..b]`; always called with `a ≤ b ≤ parts.length` in
the embedded code (Rust would panic otherwise). -/
def sliceList {α : Type} (l : List α) (a b : Nat) : List α :=
  (l.drop a).take (b - a)

/-- Rust `Vec::join(" ")` on a slice of whitespace-free tokens. -/
def joinSpace (ws : List Str) : Str := List.intercalate [' '] ws

theorem dropWhile_length_le {α : Type} (p : α → Bool) (l : List α) :
    (l.dropWhile p).length ≤ l.length := by
  induction l with
  | nil => simp [List.dropWhile]
  | cons a t ih =>
    by_cases h : p a
    · simp [List.dropWhile, h]; omega
    · simp [List.dropWhile, h]

/-- Single forward pass implementing `str::split_whitespace`; `acc` holds
the characters of the current token in reverse. -/
def splitWSGo : Str → Str → List Str
  | [], acc => if acc.isEmpty then [] else [acc.reverse]
  | c :: rest, acc =>
    if isWS c then
      if acc.isEmpty then splitWSGo rest []
      else acc.reverse :: splitWSGo rest []
    else splitWSGo rest (c :: acc)

/-- Rust `str::split_whitespace`: maximal runs of non-whitespace characters,
in order; never produces an empty token. -/
def splitWS (s : Str) : List Str := splitWSGo s []

/-- Rust `str::parse::<uN>()` for an unsigned integer type whose maximum
value is `max` (there is an optional leading `+`, then at least one ASCII
digit, and the value must fit the type). -/
def parseUnsigned (max : Nat) (s : Str) : Option Nat :=
  let digits : Str :=
    match s with
    | '+' :: rest => rest
    | _ => s
  if digits.isEmpty then none
  else if digits.all Char.isDigit then
    let v := digits.foldl (fun a c => a * 10 + (c.toNat - '0'.toNat)) 0
    if v ≤ max then some v else none
  else none

/-- Rust `str::parse::<u8>()`. -/
def parseU8 (s : Str) : Option Nat := parseUnsigned 255 s

-- ============================================================================
-- Token classifiers (src/utils.rs; duplicated verbatim in
-- src/event_handler.rs for `is_year_pattern` and `is_valid_time_format`)
-- ============================================================================

/-- src/utils.rs `is_dq_status`. -/
def is_dq_status (s : Str) : Bool :=
  s = "DQ".data || s = "DSQ".data || s = "DFS".data || s = "DNS".data

/-- src/utils.rs `is_year_pattern` (same body as the copy in
src/event_handler.rs).  Rust's `to_uppercase` is modelled per character;
the closed vocabulary is ASCII, where the two coincide. -/
def is_year_pattern (s : Str) : Bool :=
  if s.length ≠ 2 then false
  else
    let up := s.map Char.toUpper
    (up = "FR".data || up = "SO".data || up = "JR".data || up = "SR".data ||
     up = "GR".data || up = "5Y".data || up = "RS".data || up = "FF".data)
    || s.all Char.isDigit

/-- src/utils.rs `is_valid_time_format` (same body as the copy in
src/event_handler.rs).  `after.len()` is a byte length in Rust; the tokens
reaching it are ASCII, where byte length equals character count. -/
def is_valid_time_format (s0 : Str) : Bool :=
  let s := trimEndAlpha s0
  if ¬ hasChar ':' s ∧ ¬ hasChar '.' s then false
  else
    match List.findIdx? (fun c => c = ':') s with
    | some colonPos =>
      let before := s.take colonPos
      let after := s.drop (colonPos + 1)
      ¬ before.isEmpty && before.all Char.isDigit &&
        hasChar '.' after && after.length ≥ 4
    | none =>
      match List.findIdx? (fun c => c = '.') s with
      | some dotPos =>
        let after := s.drop (dotPos + 1)
        after.length ≥ 2 && after.all Char.isDigit
      | none => false

-- ============================================================================
-- Individual event parsing (src/event_handler.rs)
-- ============================================================================

/-- src/event_handler.rs `Split`.  `distance` is a `u16` in the source; it is
stored here as the reduced value `% 2 ^ 16` (release-profile wrapping). -/
structure Split where
  distance : Nat
  time : Str
deriving DecidableEq, Repr

/-- src/event_handler.rs `Swimmer`. -/
structure Swimmer where
  place : Nat
  name : Str
  year : Str
  school : Str
  seed_time : Option Str
  final_time : Str
  reaction_time : Option Str
  splits : List Split
deriving DecidableEq, Repr

/-- src/event_handler.rs `is_swimmer_line`: the first whitespace-delimited
token is all ASCII digits. -/
def is_swimmer_line (line : Str) : Bool :=
  match splitWS line with
  | [] => false
  | token :: _ => token.all Char.isDigit

/-- Rust `(splits.len() as u16 + 1) * 50`, the distance stored for the next
split when `count` splits are already stored (u16 wrapping arithmetic,
release profile). -/
def splitDistance (count : Nat) : Nat :=
  (count % 65536 + 1) % 65536 * 50 % 65536

/-- Rust `part.chars().next().map_or(false, |c| c.is_ascii_digit())`. -/
def firstCharDigit (s : Str) : Bool :=
  match s with
  | c :: _ => c.isDigit
  | [] => false

/-- One token step of src/event_handler.rs `parse_splits`'s inner loop. -/
def indivTok (acc : Option Str × List Split) (part : Str) :
    Option Str × List Split :=
  if headIs '(' part then acc
  else if headIs 'r' part then (some part, acc.2)
  else
    let is_time := ¬ hasChar '(' part && firstCharDigit part &&
      is_valid_time_format part
    if is_time then
      (acc.1, acc.2 ++ [⟨splitDistance acc.2.length, part⟩])
    else acc

/-- src/event_handler.rs `parse_splits`: scans every line after the section's
header line (index 0) token by token; returns `(reaction_time, splits)`. -/
def parse_splits (lines : List Str) : Option Str × List Split :=
  (lines.drop 1).foldl
    (fun acc line0 =>
      let line := trimStr line0
      if line.isEmpty then acc
      else (splitWS line).foldl indivTok acc)
    (none, [])

/-- The forward scan for the class-year token in
src/event_handler.rs `parse_swimmer_section`: Rust
`for i in 1..parts.len()-3 { if is_year_pattern(parts[i]) {...} }`,
i.e. the first index in `[1, parts.length - 3)` holding a year pattern. -/
def findYearIdx (parts : List Str) : Option Nat :=
  (List.range' 1 (parts.length - 3 - 1)).find?
    (fun i => is_year_pattern (parts.getD i []))

/-- src/event_handler.rs `parse_swimmer_section`.  The Rust function indexes
`lines[0]`; its callers always pass a section starting with the header
line, so the `[]` case is unreachable there. -/
def parse_swimmer_section (lines : List Str) : Option Swimmer :=
  match lines with
  | [] => none
  | mainLine :: _ =>
    let parts := splitWS (trimStr mainLine)
    if parts.length < 6 then none
    else
      (parseU8 (parts.getD 0 [])).bind fun place =>
      (parseU8 (parts.getD (parts.length - 1) [])).bind fun _points =>
      let final_time := parts.getD (parts.length - 2) []
      let seed_time := some (parts.getD (parts.length - 3) [])
      match findYearIdx parts with
      | none => none
      | some year_idx =>
        let name := joinSpace (sliceList parts 1 year_idx)
        let year := parts.getD year_idx []
        let school_end := parts.length - 3
        let school := joinSpace (sliceList parts (year_idx + 1) school_end)
        let rs := parse_splits lines
        some ⟨place, name, year, school, seed_time, final_time, rs.1, rs.2⟩

/-- A line the section-gathering scan of
src/event_handler.rs `parse_individual_event_html` steps over when looking
for the next header: empty after trimming, or not a swimmer line. -/
def notHeaderInd (l : Str) : Bool :=
  (trimStr l).isEmpty || !is_swimmer_line (trimStr l)

/-- The `while i < lines.len()` loop of
src/event_handler.rs `parse_individual_event_html`; `count` is the number of
swimmers already pushed.  After a successful parse the loop breaks as soon
as 16 swimmers have been collected (`if swimmers.len() >= 16 { break; }`). -/
def indivGo (count : Nat) (lines : List Str) : List Swimmer :=
  match lines with
  | [] => []
  | l :: rest =>
    if is_swimmer_line (trimStr l) then
      let sec := l :: rest.takeWhile notHeaderInd
      let rest' := rest.dropWhile notHeaderInd
      match parse_swimmer_section sec with
      | some sw =>
        if count + 1 ≥ 16 then [sw]
        else sw :: indivGo (count + 1) rest'
      | none => indivGo count rest'
    else indivGo count rest
termination_by lines.length
decreasing_by
  all_goals simp only [List.length_cons]
  all_goals try omega
  all_goals exact Nat.lt_succ_of_le (dropWhile_length_le _ _)

/-- src/event_handler.rs `parse_individual_event_html`, from the point where
the text content of the page's `<pre>` block has been split into lines (the
HTML `<pre>` extraction is the out-of-scope I/O boundary). -/
def parse_individual_event_lines (lines : List Str) : List Swimmer :=
  indivGo 0 lines

-- ============================================================================
-- Relay event parsing (src/relay_handler.rs)
-- ============================================================================

/-- src/relay_handler.rs `RelaySwimmer`. -/
structure RelaySwimmer where
  name : Str
  year : Str
  reaction_time : Option Str
deriving DecidableEq, Repr

/-- src/relay_handler.rs `RelayTeam`. -/
structure RelayTeam where
  place : Option Nat
  team_name : Str
  seed_time : Option Str
  final_time : Str
  dq_description : Option Str
  swimmers : List RelaySwimmer
  splits : List Split
deriving DecidableEq, Repr

/-- src/relay_handler.rs `is_relay_team_line`: first token all digits or the
literal `--`, and the line contains no `") "`. -/
def is_relay_team_line (line : Str) : Bool :=
  match splitWS line with
  | [] => false
  | token :: _ =>
    let is_place := token.all Char.isDigit
    let is_dq := token = "--".data
    (is_place || is_dq) && !strContains line ") ".data

/-- The marker string `"{k})"` for relay leg `k` (`k` is 1–4 at every call
site, so `Char.ofNat (48 + k)` is the ASCII digit). -/
def legMarker (k : Nat) : Str := [Char.ofNat (48 + k), ')']

/-- src/relay_handler.rs `parse_single_relay_swimmer`. -/
def parse_single_relay_swimmer (text : Str) (swimmer_num : Nat) :
    Option RelaySwimmer :=
  let parts := splitWS text
  match parts with
  | [] => none
  | p0 :: _ =>
    let hasReact := decide (swimmer_num > 1) && headIs 'r' p0
    let reaction_time : Option Str := if hasReact then some p0 else none
    let start_idx := if hasReact then 1 else 0
    if start_idx ≥ parts.length then none
    else
      let year_idx := ((List.range parts.length).drop start_idx).find?
        (fun i => is_year_pattern (parts.getD i []))
      match year_idx with
      | some yi =>
        some ⟨joinSpace (sliceList parts start_idx yi),
              parts.getD yi [], reaction_time⟩
      | none =>
        some ⟨joinSpace (parts.drop start_idx), [], reaction_time⟩

/-- The body of the `for swimmer_num in 1..=4` loop in
src/relay_handler.rs `parse_relay_swimmers`, for one marker `k` on one
(already trimmed) line. -/
def procMarker (line : Str) (k : Nat) (swimmers : List RelaySwimmer) :
    List RelaySwimmer :=
  let marker := legMarker k
  let search_pattern := marker ++ [' ']
  match findSub line search_pattern with
  | none => swimmers
  | some pos =>
    if pos > 0 && !(match (line.take pos).getLast? with
                    | some c => isWS c
                    | none => false) then
      swimmers
    else
      let after_marker := line.drop (pos + marker.length)
      let end_pos :=
        ((((List.range' 2 3).filter (fun n => n > k)).filterMap
            (fun n => findSub after_marker (legMarker n ++ [' ']))).min?).getD
          after_marker.length
      let swimmer_text := trimStr (after_marker.take end_pos)
      match parse_single_relay_swimmer swimmer_text k with
      | some sw => swimmers.set (k - 1) sw
      | none => swimmers

/-- Whether a trimmed line starts with one of the four leg markers. -/
def startsWithLegMarker (line : Str) : Bool :=
  "1)".data.isPrefixOf line || "2)".data.isPrefixOf line ||
  "3)".data.isPrefixOf line || "4)".data.isPrefixOf line

/-- One line of src/relay_handler.rs `parse_relay_swimmers`'s outer loop. -/
def relayRosterLine (swimmers : List RelaySwimmer) (line0 : Str) :
    List RelaySwimmer :=
  let line := trimStr line0
  let has_name_chars := line.any (fun c => c.isAlpha && c ≠ 'r')
  if !has_name_chars then swimmers
  else if !startsWithLegMarker line then swimmers
  else
    procMarker line 4 (procMarker line 3 (procMarker line 2
      (procMarker line 1 swimmers)))

/-- src/relay_handler.rs `parse_relay_swimmers`: starts from four empty
legs and fills in whichever markers are found. -/
def parse_relay_swimmers (lines : List Str) : List RelaySwimmer :=
  lines.foldl relayRosterLine
    [⟨[], [], none⟩, ⟨[], [], none⟩, ⟨[], [], none⟩, ⟨[], [], none⟩]

/-- One token step of src/relay_handler.rs `parse_relay_splits`'s inner
loop: unlike the individual scan, an already-recorded reaction time is never
overwritten. -/
def relayTok (acc : Option Str × List Split) (part : Str) :
    Option Str × List Split :=
  if headIs '(' part then acc
  else if headIs 'r' part then
    if acc.1.isNone then (some part, acc.2) else acc
  else
    let is_time := ¬ hasChar '(' part && firstCharDigit part &&
      is_valid_time_format part
    if is_time then
      (acc.1, acc.2 ++ [⟨splitDistance acc.2.length, part⟩])
    else acc

/-- src/relay_handler.rs `parse_relay_splits`: scans every line of the given
slice, skipping lines that start with a leg marker; returns
`(first_reaction, splits)`. -/
def parse_relay_splits (lines : List Str) : Option Str × List Split :=
  lines.foldl
    (fun acc line0 =>
      let line := trimStr line0
      if line.isEmpty then acc
      else if startsWithLegMarker line then acc
      else (splitWS line).foldl relayTok acc)
    (none, [])

/-- The DQ-description check of src/relay_handler.rs
`parse_relay_team_section` on the line immediately after the header
(`restLines` are the section's lines after the header line). -/
def relay_dq_description (is_dq_entry : Bool) (restLines : List Str) :
    Option Str :=
  if is_dq_entry ∧ restLines.length > 0 then
    let next_line := trimStr (restLines.getD 0 [])
    if ¬ next_line.isEmpty
        && !"1)".data.isPrefixOf next_line
        && !"r:".data.isPrefixOf next_line
        && !"r+".data.isPrefixOf next_line
        && next_line.any Char.isAlpha
        && !strContains next_line ") ".data then
      some next_line
    else none
  else none

/-- The continuation lines handed to `parse_relay_swimmers` and
`parse_relay_splits`: Rust `&lines[swimmer_start_idx..]` where
`swimmer_start_idx` is 2 when a DQ description was consumed and 1
otherwise (`restLines` already excludes the header line). -/
def relayContinuation (is_dq_entry : Bool) (restLines : List Str) :
    List Str :=
  if (relay_dq_description is_dq_entry restLines).isSome then restLines.drop 1
  else restLines

/-- src/relay_handler.rs `parse_relay_team_section`.  The Rust function
indexes `lines[0]`; its callers always pass a section starting with the
header line, so the `[]` case is unreachable there. -/
def parse_relay_team_section (lines : List Str) : Option RelayTeam :=
  match lines with
  | [] => none
  | mainLine :: restLines =>
    let parts := splitWS (trimStr mainLine)
    if parts.length < 3 then none
    else
      let is_dq_entry := parts.getD 0 [] = "--".data
      (if is_dq_entry then some none
       else (parseU8 (parts.getD 0 [])).map some).bind fun place =>
      let last := parts.getD (parts.length - 1) []
      let fields : Str × Option Str × Nat :=
        if (parseU8 last).isSome then
          (parts.getD (parts.length - 2) [],
           some (parts.getD (parts.length - 3) []),
           parts.length - 3)
        else if is_dq_status last then
          (last,
           if parts.length > 3 then some (parts.getD (parts.length - 2) [])
           else none,
           parts.length - 2)
        else
          (last,
           if parts.length > 2 then some (parts.getD (parts.length - 2) [])
           else none,
           parts.length - 2)
      let final_time := fields.1
      let seed_time := fields.2.1
      let team_end := fields.2.2
      let team_name := joinSpace (sliceList parts 1 team_end)
      let dq_description := relay_dq_description is_dq_entry restLines
      let contLines := relayContinuation is_dq_entry restLines
      let swimmers0 := parse_relay_swimmers contLines
      let rs := parse_relay_splits contLines
      let swimmers :=
        match swimmers0 with
        | [] => []
        | s :: t => { s with reaction_time := rs.1 } :: t
      some ⟨place, team_name, seed_time, final_time, dq_description,
            swimmers, rs.2⟩

/-- A line the section-gathering scan of
src/relay_handler.rs `parse_relay_event_html` steps over when looking for
the next team header. -/
def notHeaderRelay (l : Str) : Bool :=
  (trimStr l).isEmpty || !is_relay_team_line (trimStr l)

/-- The `while i < lines.len()` loop of
src/relay_handler.rs `parse_relay_event_html` (no cap on the number of
teams). -/
def relayGo (lines : List Str) : List RelayTeam :=
  match lines with
  | [] => []
  | l :: rest =>
    if is_relay_team_line (trimStr l) then
      let sec := l :: rest.takeWhile notHeaderRelay
      let rest' := rest.dropWhile notHeaderRelay
      match parse_relay_team_section sec with
      | some team => team :: relayGo rest'
      | none => relayGo rest'
    else relayGo rest
termination_by lines.length
decreasing_by
  all_goals simp only [List.length_cons]
  all_goals try omega
  all_goals exact Nat.lt_succ_of_le (dropWhile_length_le _ _)

/-- src/relay_handler.rs `parse_relay_event_html`, from the point where the
text content of the page's `<pre>` block has been split into lines. -/
def parse_relay_event_lines (lines : List Str) : List RelayTeam :=
  relayGo lines

-- ============================================================================
-- Header metadata extraction (src/metadata.rs)
-- ============================================================================

/-- src/metadata.rs `EventMetadata`. -/
structure EventMetadata where
  venue : Option Str
  meet_name : Option Str
  event_headline : Str
  records : List Str
deriving DecidableEq, Repr

/-- The mutable locals of the scanning loop in
src/metadata.rs `parse_event_metadata`. -/
structure MetaState where
  header_lines : List Str
  event_headline : Str
  records : List Str
  found_event : Bool
deriving DecidableEq, Repr

/-- A trimmed line the loop treats as an event headline: contains the
literal `"Event"` and at least one ASCII digit. -/
def isHeadlineLine (t : Str) : Bool :=
  strContains t "Event".data && t.any Char.isDigit

/-- The record test: the trimmed line contains a `:` and at least four
ASCII digits. -/
def isRecordLine (t : Str) : Bool :=
  hasChar ':' t && t.countP Char.isDigit ≥ 4

/-- The stop test: the trimmed line starts with an ASCII digit and contains
no `:`. -/
def isResultsStartLine (t : Str) : Bool :=
  (match t with | c :: _ => c.isDigit | [] => false) && !hasChar ':' t

/-- The `for line in &lines` loop of src/metadata.rs `parse_event_metadata`
(the `break` is the arm that returns without recursing). -/
def metaGo (st : MetaState) : List Str → MetaState
  | [] => st
  | line :: rest =>
    let trimmed := trimStr line
    if trimmed.isEmpty then metaGo st rest
    else if isHeadlineLine trimmed then
      metaGo { st with event_headline := trimmed, found_event := true } rest
    else if !st.found_event then
      metaGo { st with header_lines := st.header_lines ++ [trimmed] } rest
    else
      let st' := if isRecordLine trimmed
        then { st with records := st.records ++ [trimmed] } else st
      if isResultsStartLine trimmed then st'
      else metaGo st' rest

/-- src/metadata.rs `parse_event_metadata`, from the point where the text
content of the page's `<pre>` block has been split into lines (on a page
with no `<pre>` block the Rust function returns `None` before reaching this
code). -/
def parse_event_metadata (lines : List Str) : EventMetadata :=
  let st := metaGo ⟨[], [], [], false⟩ lines
  ⟨st.header_lines.head?, st.header_lines.get? 1, st.event_headline,
   st.records⟩

-- ============================================================================
-- Spec-side definitions (transcribed from spec.md, NOT from the code; used
-- only to state what the specification claims, for comparison)
-- ============================================================================

/-- The trimmed, non-empty lines of a block, in order (spec §4.7 scans
these). -/
def specCleanLines (lines : List Str) : List Str :=
  (lines.map trimStr).filter (fun t => !t.isEmpty)

/-- Spec §4.7: the header region is everything before the first
headline-shaped line. -/
def specHeaderRegion (lines : List Str) : List Str :=
  (specCleanLines lines).takeWhile (fun t => !isHeadlineLine t)

/-- Spec §4.7: a line containing the case-insensitive phrase
"site license". -/
def specIsLicenseLine (t : Str) : Bool :=
  strContains (t.map Char.toLower) "site license".data

/-- Spec §4.7: a delimiter line consists only of repeated `=` characters
and has length at least 5. -/
def specIsDelimiterLine (t : Str) : Bool :=
  t.all (fun c => c = '=') && t.length ≥ 5

/-- Spec claim C3 (§4.7): the lines strictly between the first and second
delimiter lines after the headline, scanning the trimmed non-empty lines
that follow the first headline-shaped line. -/
def specRecordsBetweenDelims (lines : List Str) : List Str :=
  let afterHeadline :=
    ((specCleanLines lines).dropWhile (fun t => !isHeadlineLine t)).drop 1
  let afterFirstDelim :=
    (afterHeadline.dropWhile (fun t => !specIsDelimiterLine t)).drop 1
  afterFirstDelim.takeWhile (fun t => !specIsDelimiterLine t)

/-- The record scan the code actually performs, phrased independently of the
loop state (used as the amended form of claim C3): walk the trimmed
non-empty lines after the first headline-shaped line; skip further
headline-shaped lines; collect lines that contain `:` and at least four
digits; stop at the first non-headline line that starts with a digit and
has no `:`. -/
def specRecordsScan : List Str → List Str
  | [] => []
  | t :: rest =>
    if isHeadlineLine t then specRecordsScan rest
    else if isRecordLine t then t :: specRecordsScan rest
    else if isResultsStartLine t then []
    else specRecordsScan rest

/-- Spec §4.2 (Line Segmenter), individual events: record sections are the
half-open line ranges starting at each header line and running to the next
header line (or the end of the block). -/
def specSectionsInd : List Str → List (List Str)
  | [] => []
  | l :: rest =>
    if is_swimmer_line (trimStr l) then
      (l :: rest.takeWhile notHeaderInd) :: specSectionsInd (rest.dropWhile notHeaderInd)
    else specSectionsInd rest
termination_by lines => lines.length
decreasing_by
  all_goals simp only [List.length_cons]
  all_goals try omega
  all_goals exact Nat.lt_succ_of_le (dropWhile_length_le _ _)

/-- Spec §4.2 (Line Segmenter), relay events. -/
def specSectionsRelay : List Str → List (List Str)
  | [] => []
  | l :: rest =>
    if is_relay_team_line (trimStr l) then
      (l :: rest.takeWhile notHeaderRelay) :: specSectionsRelay (rest.dropWhile notHeaderRelay)
    else specSectionsRelay rest
termination_by lines => lines.length
decreasing_by
  all_goals simp only [List.length_cons]
  all_goals try omega
  all_goals exact Nat.lt_succ_of_le (dropWhile_length_le _ _)

/-- The stream of tokens the individual splits scan examines: all
whitespace-delimited tokens of the trimmed lines after the header line. -/
def indivTokenStream (lines : List Str) : List Str :=
  ((lines.drop 1).map (fun l => splitWS (trimStr l))).flatten

/-- The stream of tokens the relay splits scan examines: all tokens of the
trimmed lines of the slice, excluding lines that start with a leg
marker. -/
def relayTokenStream (lines : List Str) : List Str :=
  ((lines.filter (fun l => !startsWithLegMarker (trimStr l))).map
    (fun l => splitWS (trimStr l))).flatten

/-- Reaction-time tokens of a token stream: those starting with `r`. -/
def rTokens (toks : List Str) : List Str :=
  toks.filter (headIs 'r')

-- ============================================================================
-- Helper lemmas: metadata scan
-- ============================================================================

theorem specCleanLines_nil : specCleanLines [] = [] := rfl

theorem specCleanLines_cons (l : Str) (rest : List Str) :
    specCleanLines (l :: rest) =
      if (trimStr l).isEmpty then specCleanLines rest
      else trimStr l :: specCleanLines rest := by
  simp only [specCleanLines, List.map_cons, List.filter_cons]
  by_cases h : (trimStr l).isEmpty <;> simp [h]

theorem isRecordLine_not_stop (t : Str) (h : isRecordLine t = true) :
    isResultsStartLine t = false := by
  simp only [isRecordLine, Bool.and_eq_true] at h
  simp [isResultsStartLine, h.1]

theorem metaGo_header_found (rest : List Str) :
    ∀ st : MetaState, st.found_event = true →
      (metaGo st rest).header_lines = st.header_lines := by
  induction rest with
  | nil => intro st h; rfl
  | cons line rest ih =>
    intro st h
    simp only [metaGo]
    split
    · exact ih st h
    · split
      · exact ih _ rfl
      · split
        · rename_i hnf; rw [h] at hnf; simp at hnf
        · have hfe : (if isRecordLine (trimStr line) then
              { st with records := st.records ++ [trimStr line] }
              else st).found_event = true := by
            split <;> exact h
          have hhl : (if isRecordLine (trimStr line) then
              { st with records := st.records ++ [trimStr line] }
              else st).header_lines = st.header_lines := by
            split <;> rfl
          split
          · exact hhl
          · rw [ih _ hfe, hhl]

theorem metaGo_header_unfound (rest : List Str) :
    ∀ st : MetaState, st.found_event = false →
      (metaGo st rest).header_lines =
        st.header_lines ++ specHeaderRegion rest := by
  induction rest with
  | nil => intro st h; simp [metaGo, specHeaderRegion, specCleanLines]
  | cons line rest ih =>
    intro st h
    simp only [metaGo]
    split
    · rename_i he
      rw [ih st h]
      simp [specHeaderRegion, specCleanLines_cons, he]
    · rename_i he
      split
      · rename_i hh
        rw [metaGo_header_found rest _ rfl]
        simp [specHeaderRegion, specCleanLines_cons, he, hh]
      · rename_i hh
        split
        · rw [ih { st with header_lines := st.header_lines ++ [trimStr line] } h]
          simp [specHeaderRegion, specCleanLines_cons, he, hh]
        · rename_i hnf; rw [h] at hnf; simp at hnf

theorem metaGo_records_found (rest : List Str) :
    ∀ st : MetaState, st.found_event = true →
      (metaGo st rest).records =
        st.records ++ specRecordsScan (specCleanLines rest) := by
  induction rest with
  | nil => intro st h; simp [metaGo, specCleanLines, specRecordsScan]
  | cons line rest ih =>
    intro st h
    simp only [metaGo]
    split
    · rename_i he
      rw [ih st h]
      simp [specCleanLines_cons, he]
    · rename_i he
      split
      · rename_i hh
        rw [ih _ rfl]
        simp [specCleanLines_cons, he, hh, specRecordsScan]
      · rename_i hh
        split
        · rename_i hnf; rw [h] at hnf; simp at hnf
        · have hfe : (if isRecordLine (trimStr line) then
              { st with records := st.records ++ [trimStr line] }
              else st).found_event = true := by
            split <;> exact h
          split
          · rename_i hr
            have hrec : isRecordLine (trimStr line) = false := by
              by_contra hc
              simp only [Bool.not_eq_false] at hc
              rw [isRecordLine_not_stop _ hc] at hr
              simp at hr
            rw [if_neg (by simp [hrec])]
            simp [specCleanLines_cons, he, hh, hrec, hr, specRecordsScan]
          · rename_i hr
            rw [ih _ hfe]
            by_cases hrec : isRecordLine (trimStr line)
            · rw [if_pos hrec]
              simp [specCleanLines_cons, he, hh, hrec, hr, specRecordsScan]
            · rw [if_neg hrec]
              simp [specCleanLines_cons, he, hh, hrec, hr, specRecordsScan]

theorem metaGo_records_unfound (rest : List Str) :
    ∀ st : MetaState, st.found_event = false →
      (metaGo st rest).records =
        st.records ++ specRecordsScan
          (((specCleanLines rest).dropWhile
              (fun t => !isHeadlineLine t)).drop 1) := by
  induction rest with
  | nil => intro st h; simp [metaGo, specCleanLines, specRecordsScan]
  | cons line rest ih =>
    intro st h
    simp only [metaGo]
    split
    · rename_i he
      rw [ih st h]
      simp [specCleanLines_cons, he]
    · rename_i he
      split
      · rename_i hh
        rw [metaGo_records_found rest _ rfl]
        simp [specCleanLines_cons, he, hh, List.dropWhile_cons]
      · rename_i hh
        split
        · rw [ih { st with header_lines := st.header_lines ++ [trimStr line] } h]
          simp [specCleanLines_cons, he, hh, List.dropWhile_cons]
        · rename_i hnf; rw [h] at hnf; simp at hnf

theorem parse_event_metadata_header (lines : List Str) :
    (parse_event_metadata lines).venue = (specHeaderRegion lines).head? ∧
    (parse_event_metadata lines).meet_name = (specHeaderRegion lines).get? 1 := by
  have h := metaGo_header_unfound lines ⟨[], [], [], false⟩ rfl
  constructor
  · show (metaGo ⟨[], [], [], false⟩ lines).header_lines.head? = _
    rw [h]; rfl
  · show (metaGo ⟨[], [], [], false⟩ lines).header_lines.get? 1 = _
    rw [h]; rfl

theorem parse_event_metadata_records (lines : List Str) :
    (parse_event_metadata lines).records =
      specRecordsScan (((specCleanLines lines).dropWhile
        (fun t => !isHeadlineLine t)).drop 1) := by
  have h := metaGo_records_unfound lines ⟨[], [], [], false⟩ rfl
  show (metaGo ⟨[], [], [], false⟩ lines).records = _
  rw [h]; rfl

end Scraper

namespace Scraper

-- ============================================================================
-- Helper lemmas: individual header parsing
-- ============================================================================

theorem is_dq_status_parseU8 (t : Str) (h : is_dq_status t = true) :
    parseU8 t = none := by
  simp only [is_dq_status, Bool.or_eq_true, decide_eq_true_eq] at h
  rcases h with ((h | h) | h) | h <;> subst h <;> decide

theorem getD_last {α : Type} (l : List α) (d : α) (t : α)
    (h : l.getLast? = some t) : l.getD (l.length - 1) d = t := by
  rw [List.getD_eq_getElem?_getD, ← List.getLast?_eq_getElem?, h]
  rfl

theorem parse_swimmer_section_short (hd : Str) (cont : List Str)
    (h : (splitWS (trimStr hd)).length < 6) :
    parse_swimmer_section (hd :: cont) = none := by
  simp only [parse_swimmer_section]
  rw [if_pos h]

theorem parse_swimmer_section_dq_none (hd : Str) (cont : List Str) (t : Str)
    (hlast : (splitWS (trimStr hd)).getLast? = some t)
    (hdq : is_dq_status t = true) :
    parse_swimmer_section (hd :: cont) = none := by
  have hp8 : parseU8 t = none := is_dq_status_parseU8 t hdq
  simp only [parse_swimmer_section]
  split
  · rfl
  · rw [getD_last _ _ _ hlast, hp8]
    cases parseU8 ((splitWS (trimStr hd)).getD 0 []) <;> rfl

end Scraper

namespace Scraper

theorem parse_relay_team_section_dq (hd : Str) (cont : List Str) (t : Str)
    (team : RelayTeam)
    (hlast : (splitWS (trimStr hd)).getLast? = some t)
    (hdq : is_dq_status t = true)
    (hp : parse_relay_team_section (hd :: cont) = some team) :
    team.final_time = t ∧
    team.seed_time = (if 3 < (splitWS (trimStr hd)).length then
      some ((splitWS (trimStr hd)).getD ((splitWS (trimStr hd)).length - 2) [])
      else none) := by
  have hp8 : parseU8 t = none := is_dq_status_parseU8 t hdq
  simp only [parse_relay_team_section] at hp
  split at hp
  · cases hp
  · rw [getD_last _ _ _ hlast, hp8] at hp
    simp only [Option.isSome_none, Bool.false_eq_true, if_false, hdq,
      if_true] at hp
    obtain ⟨place, hpo, hsome⟩ := Option.bind_eq_some.mp hp
    simp only [Option.some.injEq] at hsome
    subst hsome
    exact ⟨rfl, rfl⟩

end Scraper

namespace Scraper

-- ============================================================================
-- Claims C2, C3, C4, C5, C6
-- ============================================================================

/-- A header region whose first line is a site-license notice, followed by
a meet name, a venue, and the event headline. -/
def licenseInput : List Str :=
  ["Licensed to University of Georgia - Site License".data,
   "NCAA Championships 2024".data,
   "Gabrielsen Natatorium".data,
   "Event 3  Men 500 Yard Freestyle".data]

/-- **C2** (amended): the Header Metadata Extractor has no site-license
path: for every input block, venue is assigned the first header-region
line and meetName the second, whether or not a header-region line contains
the case-insensitive phrase "site license". -/
theorem c2_header_positional (lines : List Str) :
    (parse_event_metadata lines).venue = (specHeaderRegion lines).head? ∧
    (parse_event_metadata lines).meet_name = (specHeaderRegion lines).get? 1 :=
  parse_event_metadata_header lines

/-- **C2** counterexample: on `licenseInput` the header region contains a
"site license" line, whose second following non-empty line is
"Gabrielsen Natatorium"; the claim therefore requires
`venue = "Gabrielsen Natatorium"`, but the code assigns the license line
itself to `venue`. -/
theorem c2_counterexample :
    specIsLicenseLine ((specHeaderRegion licenseInput).getD 0 []) = true ∧
    (parse_event_metadata licenseInput).venue =
      some "Licensed to University of Georgia - Site License".data ∧
    (parse_event_metadata licenseInput).venue ≠
      some "Gabrielsen Natatorium".data :=
  ⟨by decide, by decide, by decide⟩

/-- A block whose records region sits between two `=====` delimiter lines,
contains one line without a colon, and is followed by a result row whose
times contain colons. -/
def delimInput : List Str :=
  ["Event 3  Men 500 Yard Freestyle".data,
   "=======".data,
   "NCAA: 1:38.14  3/27/2024 Leon Marchand".data,
   "Meet Qualifying".data,
   "=======".data,
   "1 Smith, John JR ASU 4:05.95 4:02.31 20".data]

/-- **C3** (amended): the records sequence is not delimiter-based: it
consists of the trimmed non-empty lines after the first headline-shaped
line that contain a `:` and at least four ASCII digits (headline-shaped
lines are skipped), and scanning stops at the first line that starts with
a digit and contains no `:`. -/
theorem c3_records_colon_scan (lines : List Str) :
    (parse_event_metadata lines).records =
      specRecordsScan (((specCleanLines lines).dropWhile
        (fun t => !isHeadlineLine t)).drop 1) :=
  parse_event_metadata_records lines

/-- **C3** counterexample: on `delimInput` the lines strictly between the
two delimiter lines are the NCAA record line and "Meet Qualifying", but the
code's records list omits "Meet Qualifying" (no colon) and keeps scanning
past the second delimiter, capturing the result row (whose times contain
colons). -/
theorem c3_counterexample :
    specRecordsBetweenDelims delimInput =
      ["NCAA: 1:38.14  3/27/2024 Leon Marchand".data,
       "Meet Qualifying".data] ∧
    (parse_event_metadata delimInput).records =
      ["NCAA: 1:38.14  3/27/2024 Leon Marchand".data,
       "1 Smith, John JR ASU 4:05.95 4:02.31 20".data] ∧
    (parse_event_metadata delimInput).records ≠
      specRecordsBetweenDelims delimInput :=
  ⟨by decide, by decide, by decide⟩

/-- An individual header line whose last token is a disqualification
status. -/
def dqHeader : Str := "1 Marchand, Leon JR ASU 1:40.22 DQ".data

/-- The relay team the Relay Record Parser produces for `dqHeader`. -/
def dqHeaderTeam : RelayTeam :=
  ⟨some 1, "Marchand, Leon JR ASU".data, some "1:40.22".data, "DQ".data,
   none,
   [⟨[], [], none⟩, ⟨[], [], none⟩, ⟨[], [], none⟩, ⟨[], [], none⟩], []⟩

/-- **C4** (amended): a record section whose header line ends in a
disqualification status is DROPPED by the Individual Record Parser (its
tail-field step requires the last token to parse as an integer points
value); the claimed behaviour — `finalTime` = the status token and
`seedTime` = the second-to-last token when more than three tokens are
present — is implemented only by the Relay Record Parser. -/
theorem c4_dq_individual_dropped :
    ∀ (hd : Str) (cont : List Str) (t : Str),
      (splitWS (trimStr hd)).getLast? = some t → is_dq_status t = true →
      parse_swimmer_section (hd :: cont) = none ∧
      ∀ team : RelayTeam, parse_relay_team_section (hd :: cont) = some team →
        team.final_time = t ∧
        team.seed_time = (if 3 < (splitWS (trimStr hd)).length then
          some ((splitWS (trimStr hd)).getD
            ((splitWS (trimStr hd)).length - 2) [])
          else none) :=
  fun hd cont t h1 h2 =>
    ⟨parse_swimmer_section_dq_none hd cont t h1 h2,
     fun team hp => parse_relay_team_section_dq hd cont t team h1 h2 hp⟩

theorem c4_witness :
    (splitWS (trimStr dqHeader)).getLast? = some "DQ".data ∧
    parse_swimmer_section [dqHeader] = none ∧
    parse_relay_team_section [dqHeader] = some dqHeaderTeam ∧
    dqHeaderTeam.final_time = "DQ".data :=
  ⟨by decide,
   (c4_dq_individual_dropped dqHeader [] "DQ".data (by decide) (by decide)).1,
   by decide,
   ((c4_dq_individual_dropped dqHeader [] "DQ".data (by decide)
      (by decide)).2 dqHeaderTeam (by decide)).1⟩

/-- **C4** counterexample: on `dqHeader` (last token `DQ`), the Individual
Record Parser returns no result at all, where the claim requires a
competitor result with `finalTime = "DQ"`. -/
theorem c4_counterexample :
    (splitWS (trimStr dqHeader)).getLast? = some "DQ".data ∧
    is_dq_status "DQ".data = true ∧
    parse_swimmer_section [dqHeader] = none :=
  ⟨by decide, by decide, by decide⟩

/-- **C5** (amended): the too-few-tokens rejection of the Individual Record
Parser triggers when the header line splits into fewer than SIX
whitespace-delimited tokens; a header line with exactly six tokens is not
rejected. -/
theorem c5_token_threshold :
    (∀ (hd : Str) (cont : List Str), (splitWS (trimStr hd)).length < 6 →
      parse_swimmer_section (hd :: cont) = none) ∧
    (splitWS (trimStr "1 Smith JR ASU 1:38.19 20".data)).length = 6 ∧
    (parse_swimmer_section ["1 Smith JR ASU 1:38.19 20".data]).isSome = true :=
  ⟨fun hd cont h => parse_swimmer_section_short hd cont h,
   by decide, by decide⟩

theorem c5_witness :
    (splitWS (trimStr "1 Smith JR 1:38.19 20".data)).length < 6 ∧
    parse_swimmer_section ["1 Smith JR 1:38.19 20".data] = none :=
  ⟨by decide, c5_token_threshold.1 "1 Smith JR 1:38.19 20".data [] (by decide)⟩

/-- **C5** counterexample: a header line with exactly five tokens IS
rejected (the claim says the check only triggers below five). -/
theorem c5_counterexample :
    (splitWS (trimStr "1 Smith JR 1:38.19 20".data)).length = 5 ∧
    parse_swimmer_section ["1 Smith JR 1:38.19 20".data] = none :=
  ⟨by decide, by decide⟩

/-- **C6** (amended): `is_valid_time_format` rejects both `"10."` AND
`"10.5"` (a single digit after the decimal point is below the required
two), and accepts `"1:08.61"` and `"4:02.31N"`. -/
theorem c6_time_boundaries :
    is_valid_time_format "10.".data = false ∧
    is_valid_time_format "10.5".data = false ∧
    is_valid_time_format "1:08.61".data = true ∧
    is_valid_time_format "4:02.31N".data = true :=
  ⟨by decide, by decide, by decide, by decide⟩

/-- **C6** counterexample: the claim requires `"10.5"` to be accepted; the
code rejects it. -/
theorem c6_counterexample : is_valid_time_format "10.5".data = false := by
  decide

end Scraper

namespace Scraper

-- ============================================================================
-- Helper lemmas: section loops (claim C1)
-- ============================================================================

theorem indivGo_eq (count : Nat) (lines : List Str) :
    count < 16 →
    indivGo count lines =
      ((specSectionsInd lines).filterMap parse_swimmer_section).take
        (16 - count) := by
  induction count, lines using indivGo.induct with
  | case1 count =>
    intro h
    simp [indivGo, specSectionsInd]
  | case2 count token tail hline sec sw hsw hge =>
    intro h
    rw [indivGo, specSectionsInd]
    simp only [hline, if_true, hsw, List.filterMap_cons]
    rw [if_pos hge]
    have hc : 16 - count = 1 := by omega
    rw [hc]
    simp
  | case3 count token tail hline sec rest' sw hsw hge ih =>
    intro h
    rw [indivGo, specSectionsInd]
    simp only [hline, if_true, hsw, List.filterMap_cons]
    rw [if_neg hge, ih (by omega)]
    rw [List.take_cons (by omega)]
    have hc : 16 - count - 1 = 16 - (count + 1) := by omega
    rw [hc]
  | case4 count token tail hline sec rest' hnone ih =>
    intro h
    rw [indivGo, specSectionsInd]
    simp only [hline, if_true, hnone, List.filterMap_cons]
    exact ih h
  | case5 count token tail hline ih =>
    intro h
    rw [indivGo, specSectionsInd]
    simp only [hline, Bool.false_eq_true, if_false]
    exact ih h

theorem parse_individual_eq (lines : List Str) :
    parse_individual_event_lines lines =
      ((specSectionsInd lines).filterMap parse_swimmer_section).take 16 := by
  have h := indivGo_eq 0 lines (by omega)
  simpa [parse_individual_event_lines] using h

theorem relayGo_eq (lines : List Str) :
    parse_relay_event_lines lines =
      (specSectionsRelay lines).filterMap parse_relay_team_section := by
  show relayGo lines = _
  induction lines using relayGo.induct with
  | case1 => simp [relayGo, specSectionsRelay]
  | case2 token tail hline sec rest' team hteam ih =>
    rw [relayGo, specSectionsRelay]
    simp only [hline, if_true, hteam, List.filterMap_cons]
    rw [ih]
  | case3 token tail hline sec rest' hnone ih =>
    rw [relayGo, specSectionsRelay]
    simp only [hline, if_true, hnone, List.filterMap_cons]
    exact ih
  | case4 token tail hline ih =>
    rw [relayGo, specSectionsRelay]
    simp only [hline, Bool.false_eq_true, if_false]
    exact ih

end Scraper

namespace Scraper

theorem takeWhile_replicate_neg {α : Type} (p : α → Bool) (a : α)
    (hp : p a = false) : ∀ n, (List.replicate n a).takeWhile p = [] := by
  intro n
  cases n with
  | zero => rfl
  | succ m => simp [List.replicate_succ, List.takeWhile_cons, hp]

theorem dropWhile_replicate_neg {α : Type} (p : α → Bool) (a : α)
    (hp : p a = false) :
    ∀ n, (List.replicate n a).dropWhile p = List.replicate n a := by
  intro n
  cases n with
  | zero => rfl
  | succ m => simp [List.replicate_succ, List.dropWhile_cons, hp]

theorem specSectionsInd_replicate (hdr : Str)
    (hh : is_swimmer_line (trimStr hdr) = true)
    (hnh : notHeaderInd hdr = false) :
    ∀ n, specSectionsInd (List.replicate n hdr) = List.replicate n [hdr] := by
  intro n
  induction n with
  | zero => simp [specSectionsInd]
  | succ m ih =>
    rw [List.replicate_succ, specSectionsInd]
    simp only [hh, if_true]
    rw [takeWhile_replicate_neg _ _ hnh, dropWhile_replicate_neg _ _ hnh, ih]
    rfl

/-- A well-formed individual header line (place, name, year, school, seed,
final, points). -/
def indivHeader : Str := "1 Marchand, Leon JR ASU 1:40.22 1:38.19 20".data

/-- Seventeen consecutive record sections, each a single well-formed header
line. -/
def seventeenSections : List Str := List.replicate 17 indivHeader

/-- **C1** (amended): the relay parser applies no cap — its results list is
exactly the successful section parses, in order — but the individual parser
stops after the 16th successfully parsed record section: its results list
is the first 16 successful section parses, and later sections are
dropped. -/
theorem c1_relay_uncapped_individual_capped (lines : List Str) :
    parse_individual_event_lines lines =
      ((specSectionsInd lines).filterMap parse_swimmer_section).take 16 ∧
    parse_relay_event_lines lines =
      (specSectionsRelay lines).filterMap parse_relay_team_section :=
  ⟨parse_individual_eq lines, relayGo_eq lines⟩

/-- **C1** counterexample: `seventeenSections` contains 17 record sections,
every one of which parses successfully, yet the individual parser's output
has only 16 results — the 17th successfully parsed section does not appear
in the output, where the claim requires every one to appear. -/
theorem c1_counterexample :
    ((specSectionsInd seventeenSections).filterMap
      parse_swimmer_section).length = 17 ∧
    (parse_individual_event_lines seventeenSections).length = 16 := by
  have hsec := specSectionsInd_replicate indivHeader (by decide) (by decide) 17
  have hs : (parse_swimmer_section [indivHeader]).isSome = true := by decide
  obtain ⟨sw0, hsw⟩ := Option.isSome_iff_exists.mp hs
  constructor
  · show ((specSectionsInd (List.replicate 17 indivHeader)).filterMap
      parse_swimmer_section).length = 17
    rw [hsec, List.filterMap_replicate]
    simp [hsw]
  · show (parse_individual_event_lines (List.replicate 17 indivHeader)).length = 16
    rw [parse_individual_eq, hsec, List.filterMap_replicate]
    simp [hsw]

end Scraper

namespace Scraper

-- ============================================================================
-- Helper lemmas: splits scans as folds over token streams
-- ============================================================================

theorem fst_ite_push {c : Prop} [Decidable c] (a : Option Str × List Split)
    (x : List Split) : (if c then (a.1, x) else a).1 = a.1 := by
  split <;> rfl

theorem headIs_ne (c d : Char) (s : Str) (h : headIs c s = true) (hne : d ≠ c) :
    headIs d s = false := by
  cases s with
  | nil => simp [headIs] at h
  | cons a t =>
    simp only [headIs, decide_eq_true_eq] at h
    simp only [headIs, decide_eq_false_iff_not]
    subst h
    exact fun hh => hne hh.symm

theorem splitWS_of_isEmpty (l : Str) (h : l.isEmpty = true) : splitWS l = [] := by
  rw [List.isEmpty_iff.mp h]
  rfl

theorem parse_splits_fold_aux (ls : List Str) :
    ∀ acc : Option Str × List Split,
      ls.foldl (fun acc line0 =>
        let line := trimStr line0
        if line.isEmpty then acc
        else (splitWS line).foldl indivTok acc) acc =
      ((ls.map (fun l => splitWS (trimStr l))).flatten).foldl indivTok acc := by
  induction ls with
  | nil => intro acc; rfl
  | cons l rest ih =>
    intro acc
    simp only [List.foldl_cons, List.map_cons, List.flatten_cons,
      List.foldl_append]
    rw [ih]
    congr 1
    by_cases he : (trimStr l).isEmpty
    · rw [if_pos he, splitWS_of_isEmpty _ he]
      rfl
    · rw [if_neg he]

theorem parse_splits_as_fold (lines : List Str) :
    parse_splits lines = (indivTokenStream lines).foldl indivTok (none, []) := by
  rw [parse_splits, indivTokenStream, parse_splits_fold_aux]

theorem parse_relay_splits_fold_aux (ls : List Str) :
    ∀ acc : Option Str × List Split,
      ls.foldl (fun acc line0 =>
        let line := trimStr line0
        if line.isEmpty then acc
        else if startsWithLegMarker line then acc
        else (splitWS line).foldl relayTok acc) acc =
      (((ls.filter (fun l => !startsWithLegMarker (trimStr l))).map
          (fun l => splitWS (trimStr l))).flatten).foldl relayTok acc := by
  induction ls with
  | nil => intro acc; rfl
  | cons l rest ih =>
    intro acc
    simp only [List.foldl_cons, List.filter_cons]
    by_cases hm : startsWithLegMarker (trimStr l)
    · have hme : (!startsWithLegMarker (trimStr l)) = false := by simp [hm]
      rw [hme]
      simp only [Bool.false_eq_true, if_false]
      by_cases he : (trimStr l).isEmpty
      · rw [if_pos he]; exact ih acc
      · rw [if_neg he, if_pos hm]; exact ih acc
    · have hme : (!startsWithLegMarker (trimStr l)) = true := by simp [hm]
      rw [hme]
      simp only [if_true, List.map_cons, List.flatten_cons, List.foldl_append]
      rw [ih]
      congr 1
      by_cases he : (trimStr l).isEmpty
      · rw [if_pos he, splitWS_of_isEmpty _ he]
        rfl
      · rw [if_neg he, if_neg (by simp [hm])]

theorem parse_relay_splits_as_fold (lines : List Str) :
    parse_relay_splits lines =
      (relayTokenStream lines).foldl relayTok (none, []) := by
  rw [parse_relay_splits, relayTokenStream, parse_relay_splits_fold_aux]

theorem indivFold_fst (toks : List Str) :
    ∀ acc : Option Str × List Split,
      (toks.foldl indivTok acc).1 = ((rTokens toks).getLast?).or acc.1 := by
  induction toks with
  | nil => intro acc; simp [rTokens]
  | cons t rest ih =>
    intro acc
    simp only [List.foldl_cons, rTokens, List.filter_cons]
    by_cases hr : headIs 'r' t
    · rw [ih]
      simp only [hr, if_true]
      have ht : indivTok acc t = (some t, acc.2) := by
        unfold indivTok
        rw [if_neg (by rw [headIs_ne 'r' '(' t hr (by decide)]; simp),
          if_pos hr]
      rw [ht]
      show (rTokens rest).getLast?.or (some t) =
        ((t :: rTokens rest).getLast?).or acc.1
      rw [List.getLast?_cons]
      cases hgl : (rTokens rest).getLast? <;> simp [Option.or]
    · have hrf : headIs 'r' t = false := by simpa using hr
      rw [hrf, ih]
      simp only [Bool.false_eq_true, if_false]
      congr 1
      unfold indivTok
      by_cases hp : headIs '(' t
      · rw [if_pos hp]
      · rw [if_neg hp, if_neg (by simp [hrf])]
        exact fst_ite_push acc _

theorem relayFold_fst (toks : List Str) :
    ∀ acc : Option Str × List Split,
      (toks.foldl relayTok acc).1 = acc.1.or ((rTokens toks).head?) := by
  induction toks with
  | nil => intro acc; simp [rTokens]
  | cons t rest ih =>
    intro acc
    simp only [List.foldl_cons, rTokens, List.filter_cons]
    by_cases hr : headIs 'r' t
    · simp only [hr, if_true, List.head?_cons]
      rw [ih]
      have ht : relayTok acc t =
          (if acc.1.isNone then (some t, acc.2) else acc) := by
        unfold relayTok
        rw [if_neg (by rw [headIs_ne 'r' '(' t hr (by decide)]; simp),
          if_pos hr]
      rw [ht]
      cases hao : acc.1 <;> simp [hao, Option.or]
    · have hrf : headIs 'r' t = false := by simpa using hr
      rw [hrf, ih]
      simp only [Bool.false_eq_true, if_false]
      congr 1
      unfold relayTok
      by_cases hp : headIs '(' t
      · rw [if_pos hp]
      · rw [if_neg hp, if_neg (by simp [hrf])]
        exact fst_ite_push acc _

end Scraper

namespace Scraper

-- ============================================================================
-- Helper lemmas: splits list invariants (claim C7)
-- ============================================================================

/-- The invariant of a stored splits list: the i-th entry's distance is the
(u16-wrapped) `(i as u16 + 1) * 50`, and its time token does not contain an
opening parenthesis. -/
def splitsOk (splits : List Split) : Prop :=
  ∀ i, i < splits.length →
    (splits.getD i ⟨0, []⟩).distance = splitDistance i ∧
    hasChar '(' (splits.getD i ⟨0, []⟩).time = false

theorem splitsOk_nil : splitsOk [] := by
  intro i hi
  simp at hi

theorem splitsOk_push (splits : List Split) (t : Str)
    (h : splitsOk splits) (ht : hasChar '(' t = false) :
    splitsOk (splits ++ [⟨splitDistance splits.length, t⟩]) := by
  intro i hi
  rw [List.length_append, List.length_cons, List.length_nil] at hi
  by_cases hlt : i < splits.length
  · have hgd : (splits ++ [(⟨splitDistance splits.length, t⟩ : Split)]).getD
        i ⟨0, []⟩ = splits.getD i ⟨0, []⟩ := by
      rw [List.getD_eq_getElem?_getD, List.getD_eq_getElem?_getD,
        List.getElem?_append_left hlt]
    rw [hgd]
    exact h i hlt
  · have hieq : i = splits.length := by omega
    subst hieq
    have hgd : (splits ++ [(⟨splitDistance splits.length, t⟩ : Split)]).getD
        splits.length ⟨0, []⟩ = ⟨splitDistance splits.length, t⟩ := by
      rw [List.getD_eq_getElem?_getD,
        List.getElem?_append_right (Nat.le_refl _)]
      simp
    rw [hgd]
    exact ⟨rfl, ht⟩

theorem indivTok_snd (acc : Option Str × List Split) (t : Str) :
    (indivTok acc t).2 = acc.2 ∨
    ((indivTok acc t).2 = acc.2 ++ [⟨splitDistance acc.2.length, t⟩] ∧
     hasChar '(' t = false) := by
  unfold indivTok
  by_cases hp : headIs '(' t
  · rw [if_pos hp]; exact Or.inl rfl
  · rw [if_neg hp]
    by_cases hr : headIs 'r' t
    · rw [if_pos hr]; exact Or.inl rfl
    · rw [if_neg hr]
      by_cases ht : (¬ hasChar '(' t && firstCharDigit t &&
          is_valid_time_format t) = true
      · rw [if_pos ht]
        refine Or.inr ⟨rfl, ?_⟩
        simp only [Bool.and_eq_true, decide_eq_true_eq] at ht
        simpa using ht.1.1
      · rw [if_neg ht]; exact Or.inl rfl

theorem relayTok_snd (acc : Option Str × List Split) (t : Str) :
    (relayTok acc t).2 = acc.2 ∨
    ((relayTok acc t).2 = acc.2 ++ [⟨splitDistance acc.2.length, t⟩] ∧
     hasChar '(' t = false) := by
  unfold relayTok
  by_cases hp : headIs '(' t
  · rw [if_pos hp]; exact Or.inl rfl
  · rw [if_neg hp]
    by_cases hr : headIs 'r' t
    · rw [if_pos hr]
      refine Or.inl ?_
      split <;> rfl
    · rw [if_neg hr]
      by_cases ht : (¬ hasChar '(' t && firstCharDigit t &&
          is_valid_time_format t) = true
      · rw [if_pos ht]
        refine Or.inr ⟨rfl, ?_⟩
        simp only [Bool.and_eq_true, decide_eq_true_eq] at ht
        simpa using ht.1.1
      · rw [if_neg ht]; exact Or.inl rfl

theorem foldl_indivTok_splitsOk (toks : List Str) :
    ∀ acc : Option Str × List Split, splitsOk acc.2 →
      splitsOk ((toks.foldl indivTok acc).2) := by
  induction toks with
  | nil => intro acc h; exact h
  | cons t rest ih =>
    intro acc h
    rw [List.foldl_cons]
    apply ih
    rcases indivTok_snd acc t with hsame | ⟨hpush, hc⟩
    · rw [hsame]; exact h
    · rw [hpush]; exact splitsOk_push _ _ h hc

theorem foldl_relayTok_splitsOk (toks : List Str) :
    ∀ acc : Option Str × List Split, splitsOk acc.2 →
      splitsOk ((toks.foldl relayTok acc).2) := by
  induction toks with
  | nil => intro acc h; exact h
  | cons t rest ih =>
    intro acc h
    rw [List.foldl_cons]
    apply ih
    rcases relayTok_snd acc t with hsame | ⟨hpush, hc⟩
    · rw [hsame]; exact h
    · rw [hpush]; exact splitsOk_push _ _ h hc

theorem parse_splits_splitsOk (lines : List Str) :
    splitsOk (parse_splits lines).2 := by
  rw [parse_splits_as_fold]
  exact foldl_indivTok_splitsOk _ _ splitsOk_nil

theorem parse_relay_splits_splitsOk (lines : List Str) :
    splitsOk (parse_relay_splits lines).2 := by
  rw [parse_relay_splits_as_fold]
  exact foldl_relayTok_splitsOk _ _ splitsOk_nil

theorem splitDistance_small (i : Nat) (h : i ≤ 1309) :
    splitDistance i = 50 * (i + 1) := by
  unfold splitDistance
  rw [Nat.mod_eq_of_lt (show i < 65536 by omega),
    Nat.mod_eq_of_lt (show i + 1 < 65536 by omega),
    Nat.mod_eq_of_lt (show (i + 1) * 50 < 65536 by omega)]
  omega

end Scraper

namespace Scraper

-- ============================================================================
-- Claim C7
-- ============================================================================

/-- **C7** (amended): in both splits scans, the i-th stored split (0-based)
has distance `(i as u16 + 1) * 50` computed in u16 wrapping arithmetic —
which equals `50 × (i + 1)` exactly as long as `i ≤ 1309`, i.e. as long as
no more than 1310 splits are stored (beyond that the u16 multiplication
wraps) — and no stored `Split.time` contains an opening parenthesis (so in
particular none comes from a token beginning with `(`). -/
theorem c7_split_distance_invariant (lines : List Str) (i : Nat) :
    (i < (parse_splits lines).2.length →
      ((parse_splits lines).2.getD i ⟨0, []⟩).distance = splitDistance i ∧
      (i ≤ 1309 →
        ((parse_splits lines).2.getD i ⟨0, []⟩).distance = 50 * (i + 1)) ∧
      hasChar '(' ((parse_splits lines).2.getD i ⟨0, []⟩).time = false) ∧
    (i < (parse_relay_splits lines).2.length →
      ((parse_relay_splits lines).2.getD i ⟨0, []⟩).distance =
        splitDistance i ∧
      (i ≤ 1309 →
        ((parse_relay_splits lines).2.getD i ⟨0, []⟩).distance =
          50 * (i + 1)) ∧
      hasChar '(' ((parse_relay_splits lines).2.getD i ⟨0, []⟩).time
        = false) := by
  constructor
  · intro hi
    obtain ⟨hd, hc⟩ := parse_splits_splitsOk lines i hi
    exact ⟨hd, fun h9 => by rw [hd, splitDistance_small i h9], hc⟩
  · intro hi
    obtain ⟨hd, hc⟩ := parse_relay_splits_splitsOk lines i hi
    exact ⟨hd, fun h9 => by rw [hd, splitDistance_small i h9], hc⟩

/-- A small two-line section with a reaction token, two cumulative times and
a parenthesised delta. -/
def reactInput : List Str :=
  ["hdr".data, "r:+0.62  21.09 44.62 (23.53)".data]

theorem c7_witness :
    0 < (parse_splits reactInput).2.length ∧
    ((parse_splits reactInput).2.getD 0 ⟨0, []⟩).distance = 50 * (0 + 1) ∧
    hasChar '(' ((parse_splits reactInput).2.getD 0 ⟨0, []⟩).time = false ∧
    0 < (parse_relay_splits reactInput).2.length ∧
    ((parse_relay_splits reactInput).2.getD 0 ⟨0, []⟩).distance =
      50 * (0 + 1) :=
  ⟨by decide,
   ((c7_split_distance_invariant reactInput 0).1 (by decide)).2.1 (by decide),
   ((c7_split_distance_invariant reactInput 0).1 (by decide)).2.2,
   by decide,
   ((c7_split_distance_invariant reactInput 0).2 (by decide)).2.1 (by decide)⟩

-- Machinery for the C7 counterexample: a section with 1311 time tokens.

theorem flatten_replicate_singleton {α : Type} (a : α) :
    ∀ n, (List.replicate n [a]).flatten = List.replicate n a := by
  intro n
  induction n with
  | zero => rfl
  | succ m ih => simp [List.replicate_succ, ih]

theorem indivTok_push_time (t : Str)
    (hpush : ∀ acc : Option Str × List Split,
      indivTok acc t = (acc.1, acc.2 ++ [⟨splitDistance acc.2.length, t⟩])) :
    ∀ (n : Nat) (acc : Option Str × List Split),
      (List.replicate n t).foldl indivTok acc =
        (acc.1, acc.2 ++ (List.range n).map
          (fun j => ⟨splitDistance (acc.2.length + j), t⟩)) := by
  intro n
  induction n with
  | zero => intro acc; simp
  | succ m ih =>
    intro acc
    rw [List.replicate_succ, List.foldl_cons, hpush acc, ih]
    refine Prod.ext rfl ?_
    show (acc.2 ++ [(⟨splitDistance acc.2.length, t⟩ : Split)]) ++
        (List.range m).map (fun j => (⟨splitDistance
          ((acc.2 ++ [(⟨splitDistance acc.2.length, t⟩ : Split)]).length + j),
          t⟩ : Split)) =
      acc.2 ++ (List.range (m + 1)).map
        (fun j => (⟨splitDistance (acc.2.length + j), t⟩ : Split))
    rw [List.append_assoc]
    congr 1
    rw [List.singleton_append, List.range_succ_eq_map, List.map_cons,
      List.map_map]
    congr 1
    all_goals first
      | (simp; done)
      | (apply List.map_congr_left; intro a ha;
         simp only [List.length_append, List.length_cons, List.length_nil,
           Function.comp_apply];
         congr 2
         first | rfl | omega)

/-- A section whose continuation lines carry 1311 cumulative time tokens. -/
def overflowInput : List Str :=
  "hdr".data :: List.replicate 1311 "21.09".data

theorem parse_splits_overflowInput :
    parse_splits overflowInput =
      (none, (List.range 1311).map
        (fun j => (⟨splitDistance j, "21.09".data⟩ : Split))) := by
  have hstream : indivTokenStream overflowInput =
      List.replicate 1311 "21.09".data := by
    show ((List.replicate 1311 "21.09".data).map
      (fun l => splitWS (trimStr l))).flatten = _
    rw [List.map_replicate]
    rw [show splitWS (trimStr "21.09".data) = ["21.09".data] from by decide]
    exact flatten_replicate_singleton _ _
  have hpush : ∀ acc : Option Str × List Split,
      indivTok acc "21.09".data =
        (acc.1, acc.2 ++ [⟨splitDistance acc.2.length, "21.09".data⟩]) := by
    intro acc
    unfold indivTok
    rw [if_neg (by decide), if_neg (by decide)]
    show (if (¬ hasChar '(' "21.09".data && firstCharDigit "21.09".data &&
      is_valid_time_format "21.09".data) = true then _ else _) = _
    rw [if_pos (by decide)]
  rw [parse_splits_as_fold, hstream,
    indivTok_push_time "21.09".data hpush 1311 (none, [])]
  simp

set_option maxRecDepth 4000 in
/-- **C7** counterexample: with 1311 stored splits the u16 multiplication
wraps: the 1311th split (0-based index 1310) gets distance
`65550 % 65536 = 14`, not `50 × 1311 = 65550`, and the distances are not
strictly increasing (the previous split has distance 65500). -/
theorem c7_counterexample :
    (parse_splits overflowInput).2.length = 1311 ∧
    ((parse_splits overflowInput).2.getD 1310 ⟨0, []⟩).distance = 14 ∧
    ((parse_splits overflowInput).2.getD 1309 ⟨0, []⟩).distance = 65500 ∧
    (14 : Nat) ≠ 50 * (1310 + 1) ∧ ¬ (65500 : Nat) < 14 := by
  have h := parse_splits_overflowInput
  refine ⟨?_, ?_, ?_, by omega, by omega⟩
  · rw [h]; simp
  · rw [h]
    show ((((List.range 1311).map
      (fun j => (⟨splitDistance j, "21.09".data⟩ : Split))).getD 1310
        ⟨0, []⟩).distance) = 14
    rw [List.getD_eq_getElem?_getD, List.getElem?_map,
      List.getElem?_range (by omega)]
    show splitDistance 1310 = 14
    norm_num [splitDistance]
  · rw [h]
    show ((((List.range 1311).map
      (fun j => (⟨splitDistance j, "21.09".data⟩ : Split))).getD 1309
        ⟨0, []⟩).distance) = 65500
    rw [List.getD_eq_getElem?_getD, List.getElem?_map,
      List.getElem?_range (by omega)]
    show splitDistance 1309 = 65500
    norm_num [splitDistance]

end Scraper

namespace Scraper

-- ============================================================================
-- Helper lemmas: relay roster (claims C8, C9)
-- ============================================================================

theorem procMarker_length (line : Str) (k : Nat) (sws : List RelaySwimmer) :
    (procMarker line k sws).length = sws.length := by
  unfold procMarker
  cases hf : findSub line (legMarker k ++ [' ']) with
  | none => simp only [hf]
  | some pos =>
    simp only [hf]
    split
    · rfl
    · split
      · simp [List.length_set]
      · rfl

theorem relayRosterLine_length (sws : List RelaySwimmer) (line : Str) :
    (relayRosterLine sws line).length = sws.length := by
  unfold relayRosterLine
  dsimp only
  split
  · rfl
  · split
    · rfl
    · rw [procMarker_length, procMarker_length, procMarker_length,
        procMarker_length]

theorem foldl_roster_length (lines : List Str) :
    ∀ init : List RelaySwimmer,
      (lines.foldl relayRosterLine init).length = init.length := by
  induction lines with
  | nil => intro init; rfl
  | cons l rest ih =>
    intro init
    rw [List.foldl_cons, ih, relayRosterLine_length]

theorem parse_relay_swimmers_length (lines : List Str) :
    (parse_relay_swimmers lines).length = 4 := by
  unfold parse_relay_swimmers
  rw [foldl_roster_length]
  rfl

theorem procMarker_not_found (line : Str) (k : Nat)
    (sws : List RelaySwimmer)
    (h : findSub line (legMarker k ++ [' ']) = none) :
    procMarker line k sws = sws := by
  unfold procMarker
  simp only [h]

theorem procMarker_getElem_ne (line : Str) (k : Nat)
    (sws : List RelaySwimmer) (j : Nat) (h : j ≠ k - 1) :
    (procMarker line k sws)[j]? = sws[j]? := by
  unfold procMarker
  cases hf : findSub line (legMarker k ++ [' ']) with
  | none => simp only [hf]
  | some pos =>
    simp only [hf]
    split
    · rfl
    · split
      · exact List.getElem?_set_ne (fun hh => h hh.symm)
      · rfl

theorem relayRosterLine_marker_absent (sws : List RelaySwimmer) (line : Str)
    (k : Nat) (hk1 : 1 ≤ k) (hk4 : k ≤ 4)
    (h : findSub (trimStr line) (legMarker k ++ [' ']) = none) :
    (relayRosterLine sws line)[k - 1]? = sws[k - 1]? := by
  unfold relayRosterLine
  dsimp only
  split
  · rfl
  · split
    · rfl
    · interval_cases k
      · rw [procMarker_getElem_ne _ 4 _ 0 (by omega),
          procMarker_getElem_ne _ 3 _ 0 (by omega),
          procMarker_getElem_ne _ 2 _ 0 (by omega),
          procMarker_not_found _ 1 _ h]
      · rw [procMarker_getElem_ne _ 4 _ 1 (by omega),
          procMarker_getElem_ne _ 3 _ 1 (by omega),
          procMarker_not_found _ 2 _ h,
          procMarker_getElem_ne _ 1 _ 1 (by omega)]
      · rw [procMarker_getElem_ne _ 4 _ 2 (by omega),
          procMarker_not_found _ 3 _ h,
          procMarker_getElem_ne _ 2 _ 2 (by omega),
          procMarker_getElem_ne _ 1 _ 2 (by omega)]
      · rw [procMarker_not_found _ 4 _ h,
          procMarker_getElem_ne _ 3 _ 3 (by omega),
          procMarker_getElem_ne _ 2 _ 3 (by omega),
          procMarker_getElem_ne _ 1 _ 3 (by omega)]

theorem parse_relay_swimmers_marker_absent (lines : List Str) (k : Nat)
    (hk1 : 1 ≤ k) (hk4 : k ≤ 4)
    (h : ∀ l ∈ lines, findSub (trimStr l) (legMarker k ++ [' ']) = none) :
    (parse_relay_swimmers lines)[k - 1]? =
      some ⟨[], [], none⟩ := by
  unfold parse_relay_swimmers
  have hstep : ∀ (ls : List Str) (init : List RelaySwimmer),
      (∀ l ∈ ls, findSub (trimStr l) (legMarker k ++ [' ']) = none) →
      (ls.foldl relayRosterLine init)[k - 1]? = init[k - 1]? := by
    intro ls
    induction ls with
    | nil => intro init _; rfl
    | cons l rest ih =>
      intro init hls
      rw [List.foldl_cons, ih _ (fun x hx => hls x (List.mem_cons_of_mem _ hx)),
        relayRosterLine_marker_absent init l k hk1 hk4
          (hls l (List.mem_cons_self l rest))]
  rw [hstep lines _ h]
  interval_cases k <;> rfl

end Scraper

namespace Scraper

theorem relay_team_swimmers_shape (mainLine : Str) (restLines : List Str)
    (team : RelayTeam)
    (hp : parse_relay_team_section (mainLine :: restLines) = some team) :
    ∃ s tl,
      parse_relay_swimmers (relayContinuation
        (decide ((splitWS (trimStr mainLine)).getD 0 [] = "--".data))
        restLines) = s :: tl ∧
      team.swimmers = (⟨s.name, s.year,
        (parse_relay_splits (relayContinuation
          (decide ((splitWS (trimStr mainLine)).getD 0 [] = "--".data))
          restLines)).1⟩ : RelaySwimmer) :: tl := by
  simp only [parse_relay_team_section] at hp
  split at hp
  · cases hp
  · obtain ⟨place, hpo, hsome⟩ := Option.bind_eq_some.mp hp
    simp only [Option.some.injEq] at hsome
    cases hsw0 : parse_relay_swimmers (relayContinuation
        (decide ((splitWS (trimStr mainLine)).getD 0 [] = "--".data))
        restLines) with
    | nil =>
      exfalso
      have h4 := parse_relay_swimmers_length (relayContinuation
        (decide ((splitWS (trimStr mainLine)).getD 0 [] = "--".data))
        restLines)
      rw [hsw0] at h4
      simp at h4
    | cons s tl =>
      refine ⟨s, tl, rfl, ?_⟩
      rw [← hsome]
      show (match parse_relay_swimmers (relayContinuation
          (decide ((splitWS (trimStr mainLine)).getD 0 [] = "--".data))
          restLines) with
        | [] => ([] : List RelaySwimmer)
        | s :: t => { s with reaction_time := (parse_relay_splits
            (relayContinuation
              (decide ((splitWS (trimStr mainLine)).getD 0 [] = "--".data))
              restLines)).1 } :: t) = _
      rw [hsw0]

end Scraper

namespace Scraper

-- ============================================================================
-- Claims C8, C9
-- ============================================================================

/-- **C8** (confirmed): every relay team the Relay Record Parser produces
has exactly 4 legs, however many leg markers were found; and a leg whose
marker `"k) "` appears on none of the section's continuation lines stays at
its empty-name/empty-year default while the team as a whole still
parses. -/
theorem c8_four_legs :
    ∀ (lines : List Str) (team : RelayTeam),
      parse_relay_team_section lines = some team →
      team.swimmers.length = 4 ∧
      ∀ k, 1 ≤ k → k ≤ 4 →
        (∀ l ∈ lines.drop 1,
          findSub (trimStr l) (legMarker k ++ [' ']) = none) →
        ∃ sw : RelaySwimmer, team.swimmers[k - 1]? = some sw ∧
          sw.name = [] ∧ sw.year = [] := by
  intro lines team hp
  cases lines with
  | nil => simp [parse_relay_team_section] at hp
  | cons mainLine restLines =>
    obtain ⟨s, tl, hsw0, hteam⟩ := relay_team_swimmers_shape _ _ _ hp
    have h4 := parse_relay_swimmers_length (relayContinuation
      (decide ((splitWS (trimStr mainLine)).getD 0 [] = "--".data))
      restLines)
    rw [hsw0] at h4
    constructor
    · rw [hteam]
      simpa using h4
    · intro k hk1 hk4 habs
      have habs' : ∀ l ∈ relayContinuation
          (decide ((splitWS (trimStr mainLine)).getD 0 [] = "--".data))
          restLines,
          findSub (trimStr l) (legMarker k ++ [' ']) = none := by
        intro l hl
        apply habs
        show l ∈ restLines
        unfold relayContinuation at hl
        split at hl
        · exact List.mem_of_mem_drop hl
        · exact hl
      have hmem := parse_relay_swimmers_marker_absent _ k hk1 hk4 habs'
      rw [hsw0] at hmem
      rw [hteam]
      cases hk : k - 1 with
      | zero =>
        rw [hk] at hmem
        simp only [List.getElem?_cons_zero, Option.some.injEq] at hmem
        refine ⟨_, by rw [List.getElem?_cons_zero], ?_, ?_⟩
        · show s.name = []
          rw [hmem]
        · show s.year = []
          rw [hmem]
      | succ j =>
        rw [hk] at hmem
        simp only [List.getElem?_cons_succ] at hmem ⊢
        exact ⟨_, hmem, rfl, rfl⟩

/-- A relay section whose roster line carries only the leg markers `1)` and
`2)`: markers `3)` and `4)` are absent. -/
def floridaLines : List Str :=
  ["1 Florida                             1:21.66    1:20.15N  40".data,
   "    1) Chaney, Adam SR               2) r:0.18 Smith, Julian JR".data]

/-- The team the Relay Record Parser produces for `floridaLines`. -/
def floridaTeam : RelayTeam :=
  ⟨some 1, "Florida".data, some "1:21.66".data, "1:20.15N".data, none,
   [⟨"Chaney, Adam".data, "SR".data, none⟩,
    ⟨"Smith, Julian".data, "JR".data, some "r:0.18".data⟩,
    ⟨[], [], none⟩, ⟨[], [], none⟩], []⟩

theorem c8_witness :
    parse_relay_team_section floridaLines = some floridaTeam ∧
    floridaTeam.swimmers.length = 4 ∧
    ∃ sw : RelaySwimmer, floridaTeam.swimmers[3 - 1]? = some sw ∧
      sw.name = [] ∧ sw.year = [] := by
  have h := c8_four_legs floridaLines floridaTeam (by decide)
  exact ⟨by decide, h.1, h.2 3 (by decide) (by decide) (by decide)⟩

/-- **C9** (confirmed): leg 1's reaction time always equals the
reaction-time output of the relay splits scan over the section's
continuation lines; `parse_single_relay_swimmer` never produces a reaction
time for leg 1 from its own roster text, while for legs 2–4 it takes the
reaction time from a leading `r`-token of the leg's roster text. -/
theorem c9_leg1_reaction_from_splits :
    ∀ (mainLine : Str) (restLines : List Str) (team : RelayTeam),
      parse_relay_team_section (mainLine :: restLines) = some team →
      (team.swimmers.head?.map RelaySwimmer.reaction_time =
        some (parse_relay_splits (relayContinuation
          (decide ((splitWS (trimStr mainLine)).getD 0 [] = "--".data))
          restLines)).1) ∧
      (∀ (text : Str) (sw : RelaySwimmer),
        parse_single_relay_swimmer text 1 = some sw →
        sw.reaction_time = none) ∧
      (∀ (text : Str) (k : Nat) (p0 : Str) (ps : List Str)
          (sw : RelaySwimmer),
        splitWS text = p0 :: ps → 1 < k →
        parse_single_relay_swimmer text k = some sw →
        sw.reaction_time = (if headIs 'r' p0 then some p0 else none)) := by
  intro mainLine restLines team hp
  refine ⟨?_, ?_, ?_⟩
  · obtain ⟨s, tl, hsw0, hteam⟩ := relay_team_swimmers_shape _ _ _ hp
    rw [hteam]
    rfl
  · intro text sw hps
    unfold parse_single_relay_swimmer at hps
    cases hsp : splitWS text with
    | nil => rw [hsp] at hps; cases hps
    | cons p0 ps =>
      have hfalse : (decide ((1:Nat) > 1) && headIs 'r' p0) = false := by
        simp
      simp only [hsp, hfalse, Bool.false_eq_true, if_false] at hps
      split at hps
      · cases hps
      · split at hps
        all_goals (simp only [Option.some.injEq] at hps; rw [← hps])
  · intro text k p0 ps sw hsp hk hps
    unfold parse_single_relay_swimmer at hps
    rw [hsp] at hps
    by_cases hr : headIs 'r' p0
    · rw [if_pos hr]
      have hb : (decide (k > 1) && headIs 'r' p0) = true := by
        simp [hk, hr]
      simp only [hb, eq_self_iff_true, if_true] at hps
      split at hps
      · cases hps
      · split at hps
        all_goals (simp only [Option.some.injEq] at hps; rw [← hps])
    · rw [if_neg hr]
      have hrf : headIs 'r' p0 = false := by simpa using hr
      have hb : (decide (k > 1) && headIs 'r' p0) = false := by
        simp [hrf]
      simp only [hb, Bool.false_eq_true, if_false] at hps
      split at hps
      · cases hps
      · split at hps
        all_goals (simp only [Option.some.injEq] at hps; rw [← hps])

/-- The header line of the Missouri DQ relay section from the repository's
unit tests. -/
def missouriHeader : Str :=
  "-- Missouri                           3:06.12         DQ".data

/-- The continuation lines of that section. -/
def missouriRest : List Str :=
  ["      Early take-off swimmer #4".data,
   "    1) Bochenski, Grant SR           2) r:-0.01 Ottke, Logan SO".data,
   "    3) r:0.00 Zubik, Jan JR          4) r:-0.04 Nebrich, Lucas FR".data,
   "    r:+0.71  21.81        45.58 (45.58)".data]

/-- The team the Relay Record Parser produces for the Missouri section. -/
def missouriTeam : RelayTeam :=
  ⟨none, "Missouri".data, some "3:06.12".data, "DQ".data,
   some "Early take-off swimmer #4".data,
   [⟨"Bochenski, Grant".data, "SR".data, some "r:+0.71".data⟩,
    ⟨"Ottke, Logan".data, "SO".data, some "r:-0.01".data⟩,
    ⟨"Zubik, Jan".data, "JR".data, some "r:0.00".data⟩,
    ⟨"Nebrich, Lucas".data, "FR".data, some "r:-0.04".data⟩],
   [⟨50, "21.81".data⟩, ⟨100, "45.58".data⟩]⟩

theorem c9_witness :
    parse_relay_team_section (missouriHeader :: missouriRest) =
      some missouriTeam ∧
    missouriTeam.swimmers.head?.map RelaySwimmer.reaction_time =
      some (parse_relay_splits (relayContinuation
        (decide ((splitWS (trimStr missouriHeader)).getD 0 [] = "--".data))
        missouriRest)).1 ∧
    (parse_relay_splits (relayContinuation
      (decide ((splitWS (trimStr missouriHeader)).getD 0 [] = "--".data))
      missouriRest)).1 = some "r:+0.71".data ∧
    (⟨"Bochenski, Grant".data, "SR".data, none⟩ : RelaySwimmer).reaction_time
      = none ∧
    (⟨"Zubik, Jan".data, "JR".data, some "r:0.00".data⟩
      : RelaySwimmer).reaction_time =
      (if headIs 'r' "r:0.00".data then some "r:0.00".data else none) := by
  have h := c9_leg1_reaction_from_splits missouriHeader missouriRest
    missouriTeam (by decide)
  refine ⟨by decide, h.1, by decide, ?_, ?_⟩
  · exact h.2.1 "Bochenski, Grant SR".data _ (by decide)
  · exact h.2.2 "r:0.00 Zubik, Jan JR".data 3 "r:0.00".data
      ["Zubik,".data, "Jan".data, "JR".data] _ (by decide) (by omega)
      (by decide)

end Scraper

namespace Scraper

-- ============================================================================
-- Claim C10
-- ============================================================================

/-- **C10** (confirmed): when a section's continuation lines carry several
reaction-time tokens, the individual splits scan reports the LAST one (each
occurrence overwrites the previous), while the relay splits scan reports
the FIRST one and ignores the rest. -/
theorem c10_reaction_last_vs_first (lines : List Str) :
    (2 ≤ (rTokens (indivTokenStream lines)).length →
      (parse_splits lines).1 = (rTokens (indivTokenStream lines)).getLast?) ∧
    (2 ≤ (rTokens (relayTokenStream lines)).length →
      (parse_relay_splits lines).1 =
        (rTokens (relayTokenStream lines)).head?) := by
  constructor
  · intro _
    rw [parse_splits_as_fold, indivFold_fst]
    exact Option.or_none
  · intro _
    rw [parse_relay_splits_as_fold, relayFold_fst]
    exact Option.none_or

/-- A section whose continuation lines carry two reaction tokens. -/
def doubleReactLines : List Str :=
  ["hdr".data, "r:+0.62 21.09".data, "r:+0.71 44.62".data]

theorem c10_witness :
    2 ≤ (rTokens (indivTokenStream doubleReactLines)).length ∧
    (parse_splits doubleReactLines).1 =
      (rTokens (indivTokenStream doubleReactLines)).getLast? ∧
    (parse_splits doubleReactLines).1 = some "r:+0.71".data ∧
    2 ≤ (rTokens (relayTokenStream doubleReactLines)).length ∧
    (parse_relay_splits doubleReactLines).1 =
      (rTokens (relayTokenStream doubleReactLines)).head? ∧
    (parse_relay_splits doubleReactLines).1 = some "r:+0.62".data :=
  ⟨by decide, (c10_reaction_last_vs_first doubleReactLines).1 (by decide),
   by decide, by decide,
   (c10_reaction_last_vs_first doubleReactLines).2 (by decide), by decide⟩

end Scraper
